import Mathlib

/-!
# Subscription engine of `pubsub/subscriber.go`

A shallow embedding of the receive loop `subscriber.start` and of the constructor
`NewSubscriber`, followed by the properties of its filtering, decoding, dispatch
and construction-time failure behaviour.

Modelling conventions.

* Go values that may be `nil` (`options.codec`, `options.Handler`,
  `options.coreAPI`, the entry of the codec table) are `Option`s; using a `nil`
  one is a run-time fault (`Fault`), which ends the goroutine.
* Go's `(value, err)` results of the collaborators are `Except`.
* Output of the loop (log lines and handler invocations) is recorded as a list of
  `Effect`s; the loop stamps each of them with the number of the receive it
  belongs to.
* The `event` struct is declared outside the two source files, so the type of
  events is a parameter `Event`; `default` stands for the zero value `event{}`.
-/

namespace pubsub

/-- Peer identities (`peer.PeerID`), compared with `==`. -/
abbrev PeerID := String

/-- Raw payload (`[]byte`). -/
abbrev Bytes := List Nat

/-- Go `error` values seen by this file: one made by `fmt.Errorf`, one handed
over by a collaborator (transport, identity provider, codec), or one made by
`errors.Wrap`. -/
inductive Error where
  | errorf (msg : String)
  | remote (tag : String)
  | wrap (cause : Error) (msg : String)
deriving DecidableEq, Repr

/-- Run-time faults of the Go code. -/
inductive Fault where
  | indexOutOfRange
  | nilFuncCall
  | nilDereference
deriving DecidableEq, Repr

/-- Transport message as read through `msg.From()`, `msg.Topics()`, `msg.Data()`. -/
structure Message where
  From : PeerID
  Topics : List String
  Data : Bytes
deriving DecidableEq, Repr

/-- Result of one `s.ipfsPubSub.Next(ctx)`. -/
abbrev RecvResult := Except String Message

/-- The `codec.Codec` interface, as far as the loop uses it:
`Unmarshal(data, &evt)` updates the event and returns an error or nil. -/
structure Codec (Event : Type) where
  Unmarshal : Bytes → Event → Event × Option Error

/-- Handler callbacks are identified by a label; invoking one is recorded as an
effect. -/
abbrev Handler := String

/-- The `iface.PubSubSubscription` handle: `Next k` is what the `k`-th call of
`Next` returns, `Close` what `Close()` returns. -/
structure PubSubSubscription where
  Next : Nat → RecvResult
  Close : Option Error

/-- The provider behind `options.coreAPI`: `PubSub().Subscribe(ctx, topic)` and
`Key().Self(ctx)` (with `.ID()` already taken). -/
structure CoreAPI where
  Subscribe : String → Except String PubSubSubscription
  Self : Except String PeerID

/-- The fields of `SubOptions` that `subscriber.go` reads. -/
structure SubOptions (Event : Type) where
  Topic : String
  codec : Option (Codec Event)
  Handler : Option Handler
  coreAPI : Option CoreAPI

/-- The zero value `&SubOptions{}`. -/
def SubOptions.zero (Event : Type) : SubOptions Event :=
  { Topic := "", codec := none, Handler := none, coreAPI := none }

/-- An option function `opt(options)`. -/
abbrev SubOption (Event : Type) := SubOptions Event → SubOptions Event

/-- Source: `var DefaultCodecName = "json"`. -/
def DefaultCodecName : String := "json"

/-- Source: `type subscriber struct`. -/
structure subscriber (Event : Type) where
  opts : SubOptions Event
  ipfs : Unit
  ipfsPubSub : PubSubSubscription
  peerID : PeerID
  handler : Option Handler
  codec : Codec Event

/-- Source: `func (s *subscriber) Topic() string`. -/
def subscriber.Topic {Event : Type} (s : subscriber Event) : String :=
  s.opts.Topic

/-- Source: `func (s *subscriber) Unsubscribe() error`. -/
def subscriber.Unsubscribe {Event : Type} (s : subscriber Event) : Option Error :=
  s.ipfsPubSub.Close

/-- What the loop emits: the four kinds of log line and the handler call. -/
inductive Effect (Event : Type) where
  | printf (format : String) (err : String)
  | debugf (format : String) (a b : String)
  | infof (format : String) (a : String)
  | errorf (format : String) (err : Error) (content : Bytes)
  | handle (h : Handler) (evt : Event)
deriving DecidableEq, Repr

/-- One pass through the body of `for { ... }` in `subscriber.start`, for the
receive result `r`: the effects emitted, and the fault if the pass ends in one. -/
def iteration {Event : Type} [Inhabited Event] (s : subscriber Event) (r : RecvResult) :
    List (Effect Event) × Option Fault :=
  match r with
  | .error err => ([.printf "msg err: %s" err], none)
  | .ok msg =>
    let l1 : List (Effect Event) := [.debugf "receive msg from %s, %s" msg.From s.peerID]
    if msg.From = s.peerID then
      (l1 ++ [.infof "ignore self msg %s" msg.From], none)
    else
      match msg.Topics with
      | [] => (l1, some .indexOutOfRange)
      | topic :: _ =>
        let l2 := l1 ++ [.debugf "receive msg topic %s, %s" topic s.opts.Topic]
        if topic ≠ s.opts.Topic then
          (l2 ++ [.infof "ignore topic %s" topic], none)
        else
          let res := s.codec.Unmarshal msg.Data default
          let l3 := match res.2 with
            | some e => l2 ++ [.errorf "err: %s, content: %s" e msg.Data]
            | none => l2
          match s.handler with
          | none => (l3, some .nilFuncCall)
          | some h => (l3 ++ [.handle h res.1], none)

/-- Whether the goroutine running the loop is alive. The source has no exit from
the loop, so the only way out of `Running` is a fault. -/
inductive Status where
  | Running
  | Faulted (f : Fault)
deriving DecidableEq, Repr

/-- State of the loop: status, number of receives performed, and everything
emitted so far, each effect stamped with the index of its receive. -/
structure LoopState (Event : Type) where
  status : Status
  receives : Nat
  effects : List (Nat × Effect Event)

/-- The state in which `go s.start(ctx)` enters the loop. -/
def LoopState.init (Event : Type) : LoopState Event :=
  { status := .Running, receives := 0, effects := [] }

/-- The loop fed with the receive results `rs`, from state `st`. -/
def loop {Event : Type} [Inhabited Event] (s : subscriber Event) :
    List RecvResult → LoopState Event → LoopState Event
  | [], st => st
  | r :: rs, st =>
    match st.status with
    | .Faulted _ => st
    | .Running =>
      let out := iteration s r
      loop s rs
        { status := match out.2 with
            | none => .Running
            | some f => .Faulted f
          receives := st.receives + 1
          effects := st.effects ++ out.1.map (fun e => (st.receives, e)) }

/-- The loop run on a finite sequence of receive results. -/
def runLoop {Event : Type} [Inhabited Event] (s : subscriber Event) (rs : List RecvResult) :
    LoopState Event :=
  loop s rs (LoopState.init Event)

/-- Source: `func (s *subscriber) start(ctx)`, observed after at most `n` passes:
the loop fed with the first `n` results of its own transport handle. -/
def start {Event : Type} [Inhabited Event] (s : subscriber Event) (n : Nat) : LoopState Event :=
  runLoop s ((List.range n).map s.ipfsPubSub.Next)

/-- The handler invocations in a list of stamped effects: receive index and event. -/
def calls {Event : Type} : List (Nat × Effect Event) → List (Nat × Event)
  | [] => []
  | (i, .handle _ evt) :: es => (i, evt) :: calls es
  | _ :: es => calls es

/-- The events handed to the handler, in order. -/
def delivered {Event : Type} (st : LoopState Event) : List Event :=
  (calls st.effects).map Prod.snd

/-- The handler invocations among stamped effects that belong to the receives
numbered `k` and later, each with its position counted from `k`. -/
def relCalls {Event : Type} (k : Nat) (es : List (Nat × Effect Event)) : List (Nat × Event) :=
  (calls es).filterMap (fun c => if k ≤ c.1 then some (c.1 - k, c.2) else none)

/-- The handler invocations a run made for the receives numbered `k` and later. -/
def callsFrom {Event : Type} (k : Nat) (st : LoopState Event) : List (Nat × Event) :=
  relCalls k st.effects

/-- The loop's two filters: a message reaches the decode step when its sender is
not the subscriber itself and its first topic is the subscribed one. -/
def accepted {Event : Type} (s : subscriber Event) (m : Message) : Bool :=
  decide (m.From ≠ s.peerID) && decide (m.Topics.head? = some s.opts.Topic)

/-- The two failures inside the loop: a receive that returned an error, or a
message that passed both filters and whose payload the codec rejected. -/
def failedItem {Event : Type} [Inhabited Event] (s : subscriber Event) (x : RecvResult) : Prop :=
  (∃ e, x = Except.error e) ∨
    (∃ m, x = Except.ok m ∧ accepted s m = true ∧
      (s.codec.Unmarshal m.Data default).2 ≠ none)

/-- What `NewSubscriber` does to the outside, in order. -/
inductive Call where
  | codecLookup (name : String)
  | subscribe (topic : String)
  | keySelf
  | infof (format : String) (a : String)
  | goStart
deriving DecidableEq, Repr

/-- Outcome of `NewSubscriber`: the calls made, and either a fault or the returned
pair `(sub, err)`. -/
structure Construction (Event : Type) where
  made : List Call
  ret : Except Fault (Option (subscriber Event) × Option Error)

/-- Source: `options := &SubOptions{}; for _, opt := range opts { opt(options) }`. -/
def applyOpts {Event : Type} (opts : List (SubOption Event)) : SubOptions Event :=
  opts.foldl (fun o opt => opt o) (SubOptions.zero Event)

/-- Source: `func NewSubscriber(ctx, opts ...SubOption) (sub Subscriber, err error)`.
`Codecs` is the table `codec.Codecs` of codec factories, which lives outside the
two source files. -/
def NewSubscriber {Event : Type} (Codecs : String → Option (Unit → Codec Event))
    (opts : List (SubOption Event)) : Construction Event :=
  let options := applyOpts opts
  if options.Topic = "" then
    { made := [], ret := .ok (none, some (.errorf "wrong empty topic")) }
  else
    let resolved : List Call × Option (Codec Event) :=
      match options.codec with
      | some c => ([], some c)
      | none =>
        match Codecs DefaultCodecName with
        | none => ([.codecLookup DefaultCodecName], none)
        | some mk => ([.codecLookup DefaultCodecName], some (mk ()))
    match resolved.2 with
    | none => { made := resolved.1, ret := .error .nilFuncCall }
    | some c =>
      let options := { options with codec := some c }
      match options.coreAPI with
      | none => { made := resolved.1, ret := .error .nilDereference }
      | some api =>
        match api.Subscribe options.Topic with
        | .error err =>
          { made := resolved.1 ++ [.subscribe options.Topic],
            ret := .ok (none, some (.remote err)) }
        | .ok pubSubSub =>
          match api.Self with
          | .error err =>
            { made := resolved.1 ++ [.subscribe options.Topic, .keySelf],
              ret := .ok (none, some (.wrap (.remote err) "unable to get id for user")) }
          | .ok id =>
            let s : subscriber Event :=
              { opts := options, ipfs := (), ipfsPubSub := pubSubSub, peerID := id,
                codec := c, handler := options.Handler }
            { made := resolved.1 ++
                [.subscribe options.Topic, .keySelf, .infof "sub id: %s" id, .goStart],
              ret := .ok (some s, none) }

/-! ## Concrete data used in the examples -/

/-- A codec for string events: the payload `[1]` is malformed, any other payload
decodes to the event `"high"`. -/
def demoCodec : Codec String :=
  { Unmarshal := fun data evt =>
      if data = [1] then (evt, some (.remote "bad payload")) else ("high", none) }

/-- A transport handle whose every receive reports closure. -/
def closedHandle : PubSubSubscription :=
  { Next := fun _ => .error "subscription closed", Close := none }

/-- A subscription on `"alerts"` owned by `"peerA"`. -/
def demoSub : subscriber String :=
  { opts := { Topic := "alerts", codec := some demoCodec, Handler := some "h", coreAPI := none },
    ipfs := (), ipfsPubSub := closedHandle, peerID := "peerA",
    handler := some "h", codec := demoCodec }

/-- The subscription `demoSub` built without a handler. -/
def nilSub : subscriber String :=
  { demoSub with handler := none }

/-- A transport handle that yields one message and is closed afterwards. -/
def closingHandle : PubSubSubscription :=
  { Next := fun i =>
      if i = 0 then .ok ⟨"peerB", ["alerts"], [0]⟩ else .error "subscription closed",
    Close := none }

/-- The subscription `demoSub` on the handle `closingHandle`. -/
def liveSub : subscriber String :=
  { demoSub with ipfsPubSub := closingHandle }

/-- A provider whose calls both succeed. -/
def apiOk : CoreAPI :=
  { Subscribe := fun _ => .ok closedHandle, Self := .ok "peerA" }

/-- A provider whose transport rejects the subscribe call. -/
def apiRejects : CoreAPI :=
  { Subscribe := fun _ => .error "rejected", Self := .ok "peerA" }

/-- A provider whose identity resolution fails. -/
def apiNoIdentity : CoreAPI :=
  { Subscribe := fun _ => .ok closedHandle, Self := .error "no key" }

/-- Options naming the topic `"alerts"`, a handler and the provider `api`, and no
codec. -/
def optsFor (api : CoreAPI) : List (SubOption String) :=
  [fun o => { o with Topic := "alerts" }, fun o => { o with Handler := some "h" },
   fun o => { o with coreAPI := some api }]

/-- A codec table holding `demoCodec` under `"json"` only. -/
def jsonOnly : String → Option (Unit → Codec String) :=
  fun name => if name = "json" then some (fun _ => demoCodec) else none

/-- An empty codec table. -/
def noCodecs : String → Option (Unit → Codec String) :=
  fun _ => none

/-- A message of another peer on `"alerts"` whose payload decodes. -/
def msgAlert : Message := ⟨"peerB", ["alerts"], [0]⟩

/-- A message on `"alerts"` sent by the subscriber itself. -/
def msgSelf : Message := ⟨"peerA", ["alerts"], [0]⟩

/-- A message of another peer published to `"other"` and then `"alerts"`. -/
def msgOther : Message := ⟨"peerB", ["other", "alerts"], [0]⟩

/-- A message of another peer on `"alerts"` whose payload the codec rejects. -/
def msgBad : Message := ⟨"peerB", ["alerts"], [1]⟩

/-- A self-originated message without any topic. -/
def msgSelfNoTopic : Message := ⟨"peerA", [], [0]⟩

/-- A message of another peer without any topic. -/
def msgNoTopic : Message := ⟨"peerB", [], [0]⟩

/-- A message of another peer published to `"other"` only. -/
def msgElsewhere : Message := ⟨"peerB", ["other"], [0]⟩

/-! ## The loop: structural lemmas -/

theorem loop_faulted {Event : Type} [Inhabited Event] (s : subscriber Event)
    (rs : List RecvResult) (st : LoopState Event) (f : Fault) (h : st.status = .Faulted f) :
    loop s rs st = st := by
  cases rs with
  | nil => rfl
  | cons r rs => simp [loop, h]

theorem loop_append {Event : Type} [Inhabited Event] (s : subscriber Event)
    (a b : List RecvResult) (st : LoopState Event) :
    loop s (a ++ b) st = loop s b (loop s a st) := by
  induction a generalizing st with
  | nil => rfl
  | cons r a ih =>
    cases hst : st.status with
    | Faulted f =>
      rw [List.cons_append, loop_faulted s _ st f hst, loop_faulted s _ st f hst,
        loop_faulted s _ st f hst]
    | Running => simp [loop, hst, ih]

/-- A handler invocation in one pass comes from a received message that passed
both filters, and carries what the codec left in the event. -/
theorem iteration_handle {Event : Type} [Inhabited Event] (s : subscriber Event)
    (r : RecvResult) (h : Handler) (evt : Event)
    (hmem : Effect.handle h evt ∈ (iteration s r).1) :
    ∃ m, r = .ok m ∧ m.From ≠ s.peerID ∧ m.Topics.head? = some s.opts.Topic ∧
      s.handler = some h ∧ evt = (s.codec.Unmarshal m.Data default).1 := by
  cases r with
  | error err => simp [iteration] at hmem
  | ok m =>
    refine ⟨m, rfl, ?_⟩
    unfold iteration at hmem
    by_cases hself : m.From = s.peerID
    · simp [hself] at hmem
    · cases htop : m.Topics with
      | nil => simp [hself, htop] at hmem
      | cons topic rest =>
        by_cases ht : topic = s.opts.Topic
        · cases hh : s.handler with
          | none =>
            cases hu : (s.codec.Unmarshal m.Data default).2 <;>
              simp [hself, htop, ht, hh, hu] at hmem
          | some h0 =>
            cases hu : (s.codec.Unmarshal m.Data default).2 <;>
              simp [hself, htop, ht, hh, hu] at hmem <;>
              simp [hself, ht, hmem]
        · simp [hself, htop, ht] at hmem

/-- Every effect the loop adds is stamped with the position of the receive result
whose pass emitted it. -/
theorem loop_effects_mem {Event : Type} [Inhabited Event] (s : subscriber Event)
    (rs : List RecvResult) (st : LoopState Event) (i : Nat) (e : Effect Event)
    (hmem : (i, e) ∈ (loop s rs st).effects) :
    (i, e) ∈ st.effects ∨
      ∃ j r, rs[j]? = some r ∧ i = st.receives + j ∧ e ∈ (iteration s r).1 := by
  induction rs generalizing st with
  | nil => exact Or.inl hmem
  | cons r rs ih =>
    cases hst : st.status with
    | Faulted f =>
      rw [loop_faulted s _ st f hst] at hmem
      exact Or.inl hmem
    | Running =>
      simp only [loop, hst] at hmem
      rcases ih _ hmem with h1 | ⟨j, r1, hj, hi, he⟩
      · simp only [List.mem_append, List.mem_map] at h1
        rcases h1 with h1 | ⟨e1, he1, heq⟩
        · exact Or.inl h1
        · refine Or.inr ⟨0, r, by simp, ?_, ?_⟩
          · simp only [Prod.mk.injEq] at heq
            omega
          · simp only [Prod.mk.injEq] at heq
            rw [← heq.2]
            exact he1
      · refine Or.inr ⟨j + 1, r1, by simpa using hj, ?_, he⟩
        simp only at hi
        omega

/-- Provenance of handler invocations of a run from the initial state. -/
theorem runLoop_handle {Event : Type} [Inhabited Event] (s : subscriber Event)
    (rs : List RecvResult) (i : Nat) (h : Handler) (evt : Event)
    (hmem : (i, Effect.handle h evt) ∈ (runLoop s rs).effects) :
    ∃ m, rs[i]? = some (.ok m) ∧ m.From ≠ s.peerID ∧
      m.Topics.head? = some s.opts.Topic ∧ s.handler = some h ∧
      evt = (s.codec.Unmarshal m.Data default).1 := by
  rcases loop_effects_mem s rs _ i _ hmem with h0 | ⟨j, r, hj, hi, he⟩
  · simp [LoopState.init] at h0
  · obtain ⟨m, hr, hrest⟩ := iteration_handle s r h evt he
    refine ⟨m, ?_, hrest⟩
    simp only [LoopState.init, Nat.zero_add] at hi
    rw [hi, hj, hr]

theorem calls_append {Event : Type} (a b : List (Nat × Effect Event)) :
    calls (a ++ b) = calls a ++ calls b := by
  induction a with
  | nil => rfl
  | cons x a ih =>
    obtain ⟨i, e⟩ := x
    cases e <;> simp [calls, ih]

/-- The handler invocations of one pass over a received message, when a handler
is registered and the first-topic lookup is in range: none if a filter drops the
message, else one, with the event as the codec left it. -/
theorem iteration_ok_calls {Event : Type} [Inhabited Event] (s : subscriber Event)
    (h : Handler) (m : Message) (k : Nat) (hh : s.handler = some h)
    (htop : m.From ≠ s.peerID → m.Topics ≠ []) :
    (iteration s (.ok m)).2 = none ∧
      calls ((iteration s (.ok m)).1.map (fun e => (k, e))) =
        if accepted s m then [(k, (s.codec.Unmarshal m.Data default).1)] else [] := by
  unfold iteration accepted
  by_cases hself : m.From = s.peerID
  · simp [hself, calls]
  · cases ht : m.Topics with
    | nil => exact absurd ht (htop hself)
    | cons topic rest =>
      by_cases heq : topic = s.opts.Topic
      · cases hu : (s.codec.Unmarshal m.Data default).2 <;>
          simp [hself, ht, heq, hh, hu, calls]
      · simp [hself, ht, heq, calls]

/-- A run that is still `Running` at its end has performed one receive per result. -/
theorem loop_receives_running {Event : Type} [Inhabited Event] (s : subscriber Event)
    (rs : List RecvResult) (st : LoopState Event)
    (hrun : (loop s rs st).status = .Running) :
    (loop s rs st).receives = st.receives + rs.length := by
  induction rs generalizing st with
  | nil => rfl
  | cons r rs ih =>
    cases hst : st.status with
    | Faulted f =>
      rw [loop_faulted s _ st f hst] at hrun
      rw [hst] at hrun
      cases hrun
    | Running =>
      simp only [loop, hst] at hrun ⊢
      rw [ih _ hrun]
      simp only [List.length_cons]
      omega

/-- Receive errors never take the loop out of `Running`. -/
theorem loop_errors_running {Event : Type} [Inhabited Event] (s : subscriber Event)
    (rs : List RecvResult) (st : LoopState Event)
    (herr : ∀ r ∈ rs, ∃ e, r = Except.error e) (hst : st.status = .Running) :
    (loop s rs st).status = .Running := by
  induction rs generalizing st with
  | nil => exact hst
  | cons r rs ih =>
    obtain ⟨e, he⟩ := herr r (List.mem_cons_self _ _)
    simp only [loop, hst, he]
    apply ih
    · intro r1 hr1
      exact herr r1 (List.mem_cons_of_mem _ hr1)
    · simp [iteration]

/-- Delivery of a run over received messages, from any running state. -/
theorem loop_ok_delivered {Event : Type} [Inhabited Event] (s : subscriber Event)
    (h : Handler) (hh : s.handler = some h) (ms : List Message) (st : LoopState Event)
    (hst : st.status = .Running)
    (htop : ∀ m ∈ ms, m.From ≠ s.peerID → m.Topics ≠ []) :
    (loop s (ms.map Except.ok) st).status = .Running ∧
      delivered (loop s (ms.map Except.ok) st) =
        delivered st ++
          (ms.filter (accepted s)).map (fun m => (s.codec.Unmarshal m.Data default).1) := by
  induction ms generalizing st with
  | nil => simp [loop, hst]
  | cons m ms ih =>
    obtain ⟨hnone, hcalls⟩ :=
      iteration_ok_calls s h m st.receives hh (htop m (List.mem_cons_self _ _))
    simp only [List.map_cons, loop, hst, hnone]
    have hrest := ih
      { status := .Running, receives := st.receives + 1,
        effects := st.effects ++ (iteration s (.ok m)).1.map (fun e => (st.receives, e)) }
      rfl (fun m1 hm1 => htop m1 (List.mem_cons_of_mem _ hm1))
    refine ⟨hrest.1, ?_⟩
    rw [hrest.2]
    simp only [delivered, calls_append, hcalls, List.map_append, List.append_assoc]
    by_cases hacc : accepted s m = true
    · simp [hacc, List.filter_cons]
    · simp [hacc, List.filter_cons]

theorem relCalls_append {Event : Type} (k : Nat) (a b : List (Nat × Effect Event)) :
    relCalls k (a ++ b) = relCalls k a ++ relCalls k b := by
  simp [relCalls, calls_append, List.filterMap_append]

theorem relCalls_of_lt {Event : Type} (k : Nat) (es : List (Nat × Effect Event))
    (hlt : ∀ p ∈ es, p.1 < k) : relCalls k es = [] := by
  induction es with
  | nil => rfl
  | cons x es ih =>
    have hx := hlt x (List.mem_cons_self _ _)
    have ih1 := ih (fun p hp => hlt p (List.mem_cons_of_mem _ hp))
    obtain ⟨i, e⟩ := x
    have hik : ¬ k ≤ i := Nat.not_le.mpr hx
    simp only [relCalls] at ih1 ⊢
    cases e <;> simp only [calls, List.filterMap_cons, hik, if_false, ih1]

theorem relCalls_shift {Event : Type} (k d : Nat) (es : List (Nat × Effect Event)) :
    relCalls (k + d) (es.map (fun p => (p.1 + d, p.2))) = relCalls k es := by
  induction es with
  | nil => rfl
  | cons x es ih =>
    obtain ⟨i, e⟩ := x
    simp only [relCalls] at ih ⊢
    cases e <;> simp [calls, ih, List.filterMap_cons]
    by_cases hki : k ≤ i
    · simp [hki, ih]
      omega
    · simp [hki, ih]

/-- The loop carries no state from pass to pass besides its counters: started with
the same status and a receive counter larger by `d`, it emits the same effects,
stamped `d` later, and ends with the same status. -/
theorem loop_shift {Event : Type} [Inhabited Event] (s : subscriber Event)
    (rs : List RecvResult) (st1 st2 : LoopState Event) (d : Nat)
    (hstat : st1.status = st2.status) (hrec : st2.receives = st1.receives + d) :
    ∃ news, (loop s rs st1).effects = st1.effects ++ news ∧
      (loop s rs st2).effects = st2.effects ++ news.map (fun p => (p.1 + d, p.2)) ∧
      (loop s rs st2).status = (loop s rs st1).status := by
  induction rs generalizing st1 st2 with
  | nil => exact ⟨[], by simp [loop], by simp [loop], hstat.symm⟩
  | cons r rs ih =>
    cases h1 : st1.status with
    | Faulted f =>
      have h2 : st2.status = .Faulted f := by rw [← hstat, h1]
      rw [loop_faulted s _ st1 f h1, loop_faulted s _ st2 f h2]
      exact ⟨[], by simp, by simp, hstat.symm⟩
    | Running =>
      have h2 : st2.status = .Running := by rw [← hstat, h1]
      simp only [loop, h1, h2]
      obtain ⟨news, e1, e2, e3⟩ := ih
        { status := match (iteration s r).2 with
            | none => .Running
            | some f => .Faulted f
          receives := st1.receives + 1
          effects := st1.effects ++ (iteration s r).1.map (fun e => (st1.receives, e)) }
        { status := match (iteration s r).2 with
            | none => .Running
            | some f => .Faulted f
          receives := st2.receives + 1
          effects := st2.effects ++ (iteration s r).1.map (fun e => (st2.receives, e)) }
        rfl (by simp only [hrec]; omega)
      refine ⟨(iteration s r).1.map (fun e => (st1.receives, e)) ++ news, ?_, ?_, e3⟩
      · rw [e1, List.append_assoc]
      · rw [e2, List.append_assoc, List.map_append, List.map_map, hrec]
        rfl

/-- The pass over a failed item ends without a fault, provided a handler is
registered when the item is a message. -/
theorem failedItem_no_fault {Event : Type} [Inhabited Event] (s : subscriber Event)
    (x : RecvResult) (hx : failedItem s x)
    (hh : (∃ m, x = Except.ok m) → s.handler ≠ none) : (iteration s x).2 = none := by
  rcases hx with ⟨e, rfl⟩ | ⟨m, rfl, hacc, _⟩
  · rfl
  · cases hh1 : s.handler with
    | none => exact absurd hh1 (hh ⟨m, rfl⟩)
    | some h =>
      simp only [accepted, Bool.and_eq_true, decide_eq_true_eq] at hacc
      refine (iteration_ok_calls s h m 0 hh1 ?_).1
      intro _ hnil
      rw [hnil] at hacc
      simp at hacc

/-- Effects once emitted stay in the state of the loop. -/
theorem loop_effects_mono {Event : Type} [Inhabited Event] (s : subscriber Event)
    (rs : List RecvResult) (st : LoopState Event) (p : Nat × Effect Event)
    (hp : p ∈ st.effects) : p ∈ (loop s rs st).effects := by
  induction rs generalizing st with
  | nil => exact hp
  | cons r rs ih =>
    cases hst : st.status with
    | Faulted f =>
      rw [loop_faulted s _ st f hst]
      exact hp
    | Running =>
      simp only [loop, hst]
      exact ih _ (List.mem_append_left _ hp)

/-- In a run over failed receives only, each of them is reported by its log line,
stamped with its own receive. -/
theorem loop_errors_reported {Event : Type} [Inhabited Event] (s : subscriber Event)
    (rs : List RecvResult) (st : LoopState Event) (j : Nat) (e : String)
    (herr : ∀ r ∈ rs, ∃ e1, r = Except.error e1) (hst : st.status = .Running)
    (hj : rs[j]? = some (Except.error e)) :
    (st.receives + j, Effect.printf "msg err: %s" e) ∈ (loop s rs st).effects := by
  induction rs generalizing st j with
  | nil => simp at hj
  | cons r rs ih =>
    obtain ⟨e1, he1⟩ := herr r (List.mem_cons_self _ _)
    simp only [loop, hst, he1]
    cases j with
    | zero =>
      simp only [List.getElem?_cons_zero, Option.some.injEq] at hj
      rw [he1] at hj
      cases hj
      apply loop_effects_mono
      simp [iteration]
    | succ j =>
      simp only [List.getElem?_cons_succ] at hj
      have hrest := ih
        { status := match (iteration s (Except.error e1)).2 with
            | none => .Running
            | some f => .Faulted f
          receives := st.receives + 1
          effects := st.effects ++
            (iteration s (Except.error e1)).1.map (fun x => (st.receives, x)) }
        j (fun r1 hr1 => herr r1 (List.mem_cons_of_mem _ hr1)) (by simp [iteration]) hj
      have hidx : st.receives + 1 + j = st.receives + (j + 1) := by omega
      simp only [hidx] at hrest
      exact hrest

/-- Receive errors add no handler invocation. -/
theorem loop_errors_calls {Event : Type} [Inhabited Event] (s : subscriber Event)
    (rs : List RecvResult) (st : LoopState Event)
    (herr : ∀ r ∈ rs, ∃ e, r = Except.error e) :
    calls (loop s rs st).effects = calls st.effects := by
  induction rs generalizing st with
  | nil => rfl
  | cons r rs ih =>
    cases hst : st.status with
    | Faulted f => rw [loop_faulted s _ st f hst]
    | Running =>
      obtain ⟨e, he⟩ := herr r (List.mem_cons_self _ _)
      simp only [loop, hst, he]
      rw [ih _ (fun r1 hr1 => herr r1 (List.mem_cons_of_mem _ hr1))]
      simp [iteration, calls_append, calls]

/-- Once every further receive fails, the loop neither stops nor delivers: it is
`Running` after any number of passes, with one receive per pass, and each of the
failed receives it has gone through is reported. -/
theorem start_errors_forever {Event : Type} [Inhabited Event] (s : subscriber Event)
    (k n : Nat) (hk : (start s k).status = .Running)
    (herr : ∀ i, k ≤ i → ∃ e, s.ipfsPubSub.Next i = Except.error e) (hn : k ≤ n) :
    (start s n).status = .Running ∧ (start s n).receives = n ∧
      delivered (start s n) = delivered (start s k) ∧
      ∀ i e, k ≤ i → i < n → s.ipfsPubSub.Next i = Except.error e →
        (i, Effect.printf "msg err: %s" e) ∈ (start s n).effects := by
  obtain ⟨d, rfl⟩ := Nat.exists_eq_add_of_le hn
  have hsplit : start s (k + d) =
      loop s ((List.range d).map (fun i => s.ipfsPubSub.Next (k + i))) (start s k) := by
    simp only [start, runLoop, List.range_add, List.map_append, loop_append, List.map_map]
    rfl
  have hall : ∀ r ∈ (List.range d).map (fun i => s.ipfsPubSub.Next (k + i)),
      ∃ e, r = Except.error e := by
    intro r hr
    obtain ⟨i, _, rfl⟩ := List.mem_map.mp hr
    exact herr (k + i) (Nat.le_add_right k i)
  have hrun : (start s (k + d)).status = .Running := by
    rw [hsplit]
    exact loop_errors_running s _ _ hall hk
  have hreck : (start s k).receives = k := by
    have := loop_receives_running s ((List.range k).map s.ipfsPubSub.Next)
      (LoopState.init Event) hk
    simpa [start, runLoop, LoopState.init] using this
  refine ⟨hrun, ?_, ?_, ?_⟩
  · have := loop_receives_running s ((List.range (k + d)).map s.ipfsPubSub.Next)
      (LoopState.init Event) hrun
    simpa [start, runLoop, LoopState.init] using this
  · rw [hsplit, delivered, delivered, loop_errors_calls s _ _ hall]
  · intro i e hki hid hnext
    obtain ⟨j, rfl⟩ := Nat.exists_eq_add_of_le hki
    have hjd : j < d := by omega
    have hget : ((List.range d).map (fun i => s.ipfsPubSub.Next (k + i)))[j]? =
        some (Except.error e) := by
      rw [List.getElem?_map, List.getElem?_range hjd, Option.map_some', hnext]
    have hrep := loop_errors_reported s _ (start s k) j e hall hk hget
    rw [hreck] at hrep
    rw [hsplit]
    exact hrep

/-! ## Filtering -/

/-- C1. Self-origin filtering: in a run of the loop over any finite sequence of
receive results, no handler invocation belongs to a received message whose
sender equals the subscription's own identity, whatever its topics and payload. -/
theorem self_origin_never_delivered {Event : Type} [Inhabited Event] (s : subscriber Event)
    (rs : List RecvResult) (i : Nat) (m : Message)
    (hget : rs[i]? = some (.ok m)) (hself : m.From = s.peerID) :
    ∀ h evt, (i, Effect.handle h evt) ∉ (runLoop s rs).effects := by
  intro h evt hmem
  obtain ⟨m1, hm1, hne, _⟩ := runLoop_handle s rs i h evt hmem
  rw [hget] at hm1
  cases hm1
  exact hne hself

/-- C1, instance: a message from `"peerA"` itself, on the subscribed topic and with
a payload that decodes, placed after a message that is delivered. -/
theorem self_origin_never_delivered_witness :
    ([.ok msgAlert, .ok msgSelf] : List RecvResult)[1]? = some (.ok msgSelf) ∧
      msgSelf.From = demoSub.peerID ∧
      ∀ h evt, (1, Effect.handle h evt) ∉
        (runLoop demoSub [.ok msgAlert, .ok msgSelf]).effects :=
  ⟨rfl, rfl, self_origin_never_delivered demoSub _ 1 msgSelf rfl rfl⟩

/-- C2. Topic filtering: every handler invocation of a run belongs to a received
message whose first topic is the subscribed one, and a message from another peer
whose first topic differs is never handed to the handler, wherever else the
subscribed topic stands in its list. -/
theorem topic_filter_first_entry {Event : Type} [Inhabited Event] (s : subscriber Event)
    (rs : List RecvResult) (i : Nat) :
    (∀ h evt, (i, Effect.handle h evt) ∈ (runLoop s rs).effects →
      ∃ m, rs[i]? = some (.ok m) ∧ m.Topics.head? = some s.opts.Topic) ∧
    (∀ m, rs[i]? = some (.ok m) → m.From ≠ s.peerID →
      m.Topics.head? ≠ some s.opts.Topic →
      ∀ h evt, (i, Effect.handle h evt) ∉ (runLoop s rs).effects) := by
  constructor
  · intro h evt hmem
    obtain ⟨m, hm, _, htop, _⟩ := runLoop_handle s rs i h evt hmem
    exact ⟨m, hm, htop⟩
  · intro m hget _ hne h evt hmem
    obtain ⟨m1, hm1, _, htop, _⟩ := runLoop_handle s rs i h evt hmem
    rw [hget] at hm1
    cases hm1
    exact hne htop

/-- C2, instance: the first message is delivered and has first topic `"alerts"`;
the second lists `"alerts"` after `"other"` and is not delivered. -/
theorem topic_filter_first_entry_witness :
    ((0, Effect.handle "h" "high") ∈ (runLoop demoSub [.ok msgAlert, .ok msgOther]).effects ∧
      ∃ m, ([.ok msgAlert, .ok msgOther] : List RecvResult)[0]? = some (.ok m) ∧
        m.Topics.head? = some demoSub.opts.Topic) ∧
    (([.ok msgAlert, .ok msgOther] : List RecvResult)[1]? = some (.ok msgOther) ∧
      msgOther.From ≠ demoSub.peerID ∧
      msgOther.Topics.head? ≠ some demoSub.opts.Topic ∧
      ∀ h evt, (1, Effect.handle h evt) ∉
        (runLoop demoSub [.ok msgAlert, .ok msgOther]).effects) :=
  ⟨⟨by decide,
      (topic_filter_first_entry demoSub _ 0).1 "h" "high" (by decide)⟩,
    rfl, by decide, by decide,
    (topic_filter_first_entry demoSub _ 1).2 msgOther rfl (by decide) (by decide)⟩

/-- C10. Safety of the first-topic lookup: a pass over a received message ends in
an index fault exactly when the sender is another peer and the topic list is
empty; so a pass never faults on indexing when every message of another peer
carries a topic, and a self-originated message ends its pass without a fault
even with an empty topic list. -/
theorem first_topic_lookup_safety {Event : Type} [Inhabited Event] (s : subscriber Event)
    (m : Message) :
    ((iteration s (.ok m)).2 = some Fault.indexOutOfRange ↔
      (m.From ≠ s.peerID ∧ m.Topics = [])) ∧
    ((m.From ≠ s.peerID → m.Topics ≠ []) →
      (iteration s (.ok m)).2 ≠ some Fault.indexOutOfRange) ∧
    (m.From = s.peerID → (iteration s (.ok m)).2 = none) := by
  have key : (iteration s (.ok m)).2 = some Fault.indexOutOfRange ↔
      (m.From ≠ s.peerID ∧ m.Topics = []) := by
    unfold iteration
    by_cases hself : m.From = s.peerID
    · simp [hself]
    · cases htop : m.Topics with
      | nil => simp [hself, htop]
      | cons topic rest =>
        by_cases ht : topic = s.opts.Topic
        · cases hh : s.handler <;> simp [hself, htop, ht]
        · simp [hself, htop, ht]
  refine ⟨key, ?_, ?_⟩
  · intro hpre hfault
    exact hpre (key.1 hfault).1 (key.1 hfault).2
  · intro hself
    simp [iteration, hself]

/-- C10, instance: a message of another peer with a topic, and a self-originated
message without any. -/
theorem first_topic_lookup_safety_witness :
    ((msgAlert.From ≠ demoSub.peerID → msgAlert.Topics ≠ []) ∧
      (iteration demoSub (.ok msgAlert)).2 ≠ some Fault.indexOutOfRange) ∧
    (msgSelfNoTopic.From = demoSub.peerID ∧
      (iteration demoSub (.ok msgSelfNoTopic)).2 = none) :=
  ⟨⟨by decide, (first_topic_lookup_safety demoSub msgAlert).2.1 (by decide)⟩,
    rfl, (first_topic_lookup_safety demoSub msgSelfNoTopic).2.2 rfl⟩

/-! ## Decoding -/

/-- C3, evaluation at the failing input: a message of another peer on the
subscribed topic whose payload the codec rejects. The pass logs the decode error
and then still invokes the handler, with the event as the codec left it. -/
theorem decode_failure_still_dispatches :
    (demoCodec.Unmarshal [1] default).2 = some (Error.remote "bad payload") ∧
    runLoop demoSub [.ok msgBad] =
      { status := .Running, receives := 1,
        effects :=
          [(0, .debugf "receive msg from %s, %s" "peerB" "peerA"),
           (0, .debugf "receive msg topic %s, %s" "alerts" "alerts"),
           (0, .errorf "err: %s, content: %s" (.remote "bad payload") [1]),
           (0, .handle "h" "")] } := by
  constructor
  · rfl
  · rfl

/-! ## Delivery -/

/-- C5, as amended. For a subscription with a handler and every finite sequence
of successfully received messages whose payloads all decode and in which every
message of another peer carries at least one topic, the events handed to the
handler are exactly the decoded payloads of the messages with a sender other
than the own identity and first topic equal to the subscribed one, in the order
received, each once; and the loop is still running. -/
theorem delivery_is_ordered_filter {Event : Type} [Inhabited Event] (s : subscriber Event)
    (h : Handler) (ms : List Message) (hh : s.handler = some h)
    (hdec : ∀ m ∈ ms, (s.codec.Unmarshal m.Data default).2 = none)
    (htop : ∀ m ∈ ms, m.From ≠ s.peerID → m.Topics ≠ []) :
    (∀ m ∈ ms.filter (accepted s), (s.codec.Unmarshal m.Data default).2 = none) ∧
    (runLoop s (ms.map Except.ok)).status = .Running ∧
    delivered (runLoop s (ms.map Except.ok)) =
      (ms.filter (accepted s)).map (fun m => (s.codec.Unmarshal m.Data default).1) := by
  refine ⟨fun m hm => hdec m (List.mem_of_mem_filter hm), ?_⟩
  have key := loop_ok_delivered s h hh ms (LoopState.init Event) rfl htop
  refine ⟨key.1, ?_⟩
  rw [runLoop, key.2]
  simp [delivered, LoopState.init, calls]

/-- C5, the scenario of the specification: topic `"alerts"`, own identity
`"peerA"`, and messages from `"peerB"` on `"alerts"`, from `"peerA"` on
`"alerts"`, from `"peerB"` on `"other"`: one invocation, for the first. -/
theorem delivery_is_ordered_filter_witness :
    demoSub.handler = some "h" ∧
    (∀ m ∈ [msgAlert, msgSelf, msgElsewhere],
      (demoSub.codec.Unmarshal m.Data default).2 = none) ∧
    (∀ m ∈ [msgAlert, msgSelf, msgElsewhere], m.From ≠ demoSub.peerID → m.Topics ≠ []) ∧
    delivered (runLoop demoSub ([msgAlert, msgSelf, msgElsewhere].map Except.ok)) =
      ([msgAlert, msgSelf, msgElsewhere].filter (accepted demoSub)).map
        (fun m => (demoSub.codec.Unmarshal m.Data default).1) ∧
    calls (runLoop demoSub ([msgAlert, msgSelf, msgElsewhere].map Except.ok)).effects =
      [(0, "high")] :=
  ⟨rfl, by decide, by decide,
    (delivery_is_ordered_filter demoSub "h" [msgAlert, msgSelf, msgElsewhere] rfl
      (by decide) (by decide)).2.2,
    by decide⟩

/-- C5 as stated fails when a message of another peer carries no topic: the
payloads of both messages decode and the second passes both filters, yet the
first-topic lookup of the first faults and nothing is delivered. It fails also
on a subscription built without a handler: both messages decode and pass both
filters, yet the call of the nil handler faults and nothing is delivered. -/
theorem delivery_is_ordered_filter_counterexample :
    ((∀ m ∈ [msgNoTopic, msgAlert], (demoSub.codec.Unmarshal m.Data default).2 = none) ∧
      ([msgNoTopic, msgAlert].filter (accepted demoSub)).map
          (fun m => (demoSub.codec.Unmarshal m.Data default).1) = ["high"] ∧
      (runLoop demoSub ([msgNoTopic, msgAlert].map Except.ok)).status =
          .Faulted .indexOutOfRange ∧
      delivered (runLoop demoSub ([msgNoTopic, msgAlert].map Except.ok)) = [] ∧
      delivered (runLoop demoSub ([msgNoTopic, msgAlert].map Except.ok)) ≠
        ([msgNoTopic, msgAlert].filter (accepted demoSub)).map
          (fun m => (demoSub.codec.Unmarshal m.Data default).1)) ∧
    (nilSub.handler = none ∧
      (∀ m ∈ [msgAlert, msgAlert], (nilSub.codec.Unmarshal m.Data default).2 = none) ∧
      (∀ m ∈ [msgAlert, msgAlert], m.From ≠ nilSub.peerID → m.Topics ≠ []) ∧
      ([msgAlert, msgAlert].filter (accepted nilSub)).map
          (fun m => (nilSub.codec.Unmarshal m.Data default).1) = ["high", "high"] ∧
      (runLoop nilSub ([msgAlert, msgAlert].map Except.ok)).status =
          .Faulted .nilFuncCall ∧
      delivered (runLoop nilSub ([msgAlert, msgAlert].map Except.ok)) = []) := by
  refine ⟨⟨by decide, by decide, by decide, by decide, by decide⟩,
    rfl, by decide, by decide, by decide, by decide, by decide⟩

/-! ## Failures inside the loop -/

/-- The effects of a run from the initial state are stamped below the number of
results fed. -/
theorem runLoop_stamp_lt {Event : Type} [Inhabited Event] (s : subscriber Event)
    (rs : List RecvResult) : ∀ p ∈ (runLoop s rs).effects, p.1 < rs.length := by
  intro p hp
  rcases loop_effects_mem s rs _ p.1 p.2 hp with h0 | ⟨j, r, hj, hi, _⟩
  · simp [LoopState.init] at h0
  · have hlt : j < rs.length := (List.getElem?_eq_some.mp hj).1
    simp only [LoopState.init, Nat.zero_add] at hi
    omega

/-- C6, as amended. Failures do not stop later delivery: a failed receive, or,
on a subscription whose handler is set, a payload that fails to decode, ends its
pass without a fault and leaves the status of the loop as it was; and the
handler invocations for the results after the failing item are the same,
position by position, as in the run over the sequence without the failing item. -/
theorem failures_do_not_stop_delivery {Event : Type} [Inhabited Event] (s : subscriber Event)
    (pre post : List RecvResult) (x : RecvResult) (hx : failedItem s x)
    (hh : (∃ m, x = Except.ok m) → s.handler ≠ none) :
    (iteration s x).2 = none ∧
    (runLoop s (pre ++ [x])).status = (runLoop s pre).status ∧
    callsFrom (pre.length + 1) (runLoop s (pre ++ x :: post)) =
      callsFrom pre.length (runLoop s (pre ++ post)) := by
  have hnf := failedItem_no_fault s x hx hh
  refine ⟨hnf, ?_, ?_⟩
  · simp only [runLoop, loop_append]
    cases hst : (loop s pre (LoopState.init Event)).status with
    | Faulted f => rw [loop_faulted s _ _ f hst, hst]
    | Running => simp [loop, hst, hnf]
  · have hlt := runLoop_stamp_lt s pre
    simp only [runLoop] at hlt
    simp only [runLoop, loop_append, callsFrom]
    cases hst : (loop s pre (LoopState.init Event)).status with
    | Faulted f =>
      rw [loop_faulted s _ _ f hst, loop_faulted s _ _ f hst]
      rw [relCalls_of_lt _ _ hlt, relCalls_of_lt _ _ (fun p hp => Nat.lt_succ_of_lt (hlt p hp))]
    | Running =>
      have hrec : (loop s pre (LoopState.init Event)).receives = pre.length := by
        rw [loop_receives_running s pre _ hst]
        exact Nat.zero_add _
      simp only [loop, hst, hnf]
      obtain ⟨news, e1, e2, _⟩ := loop_shift s post (loop s pre (LoopState.init Event))
        { status := .Running
          receives := (loop s pre (LoopState.init Event)).receives + 1
          effects := (loop s pre (LoopState.init Event)).effects ++
            (iteration s x).1.map
              (fun e => ((loop s pre (LoopState.init Event)).receives, e)) }
        1 hst rfl
      rw [e1, e2, relCalls_append, relCalls_append, relCalls_append, relCalls_shift,
        relCalls_of_lt _ _ hlt,
        relCalls_of_lt _ _ (fun p hp => Nat.lt_succ_of_lt (hlt p hp)),
        relCalls_of_lt (pre.length + 1) ((iteration s x).1.map _)]
      · rfl
      · intro p hp
        obtain ⟨e, _, rfl⟩ := List.mem_map.mp hp
        simp only [hrec]
        omega

/-- C6, instances: a rejected payload on a subscription with a handler, and a
failed receive on one without, each between two messages that pass both filters;
the message after the failing item is treated as in the run without the item. -/
theorem failures_do_not_stop_delivery_witness :
    (failedItem demoSub (.ok msgBad) ∧ demoSub.handler ≠ none ∧
      (runLoop demoSub [.ok msgAlert, .ok msgBad]).status =
        (runLoop demoSub [.ok msgAlert]).status ∧
      callsFrom 2 (runLoop demoSub [.ok msgAlert, .ok msgBad, .ok msgAlert]) =
        callsFrom 1 (runLoop demoSub [.ok msgAlert, .ok msgAlert]) ∧
      callsFrom 2 (runLoop demoSub [.ok msgAlert, .ok msgBad, .ok msgAlert]) =
        [(0, "high")]) ∧
    (failedItem nilSub (.error "timeout") ∧
      (runLoop nilSub [.error "timeout", .error "timeout"]).status =
        (runLoop nilSub [.error "timeout"]).status ∧
      (runLoop nilSub [.error "timeout", .error "timeout"]).status = .Running) :=
  ⟨⟨Or.inr ⟨msgBad, rfl, by decide, by decide⟩, by decide,
      (failures_do_not_stop_delivery demoSub [.ok msgAlert] [.ok msgAlert] (.ok msgBad)
        (Or.inr ⟨msgBad, rfl, by decide, by decide⟩) (fun _ => by decide)).2.1,
      (failures_do_not_stop_delivery demoSub [.ok msgAlert] [.ok msgAlert] (.ok msgBad)
        (Or.inr ⟨msgBad, rfl, by decide, by decide⟩) (fun _ => by decide)).2.2,
      by decide⟩,
    ⟨Or.inl ⟨"timeout", rfl⟩,
      (failures_do_not_stop_delivery nilSub [.error "timeout"] [] (.error "timeout")
        (Or.inl ⟨"timeout", rfl⟩)
        (fun hm => by
          obtain ⟨m, hm⟩ := hm
          cases hm)).2.1,
      by decide⟩⟩

/-- C6 as stated fails on a subscription built without a handler: a message that
passes both filters and whose payload the codec rejects does not leave the loop
running, because after the error is logged the call of the nil handler faults;
the message received next is then not processed at all. -/
theorem failures_do_not_stop_delivery_counterexample :
    nilSub.handler = none ∧
    failedItem nilSub (.ok msgBad) ∧
    (iteration nilSub (.ok msgBad)).2 = some Fault.nilFuncCall ∧
    (runLoop nilSub []).status = .Running ∧
    (runLoop nilSub ([] ++ [.ok msgBad])).status = .Faulted .nilFuncCall ∧
    (runLoop nilSub ([] ++ [.ok msgBad])).status ≠ (runLoop nilSub []).status ∧
    (runLoop nilSub [.ok msgBad, .ok msgSelf]).receives = 1 := by
  refine ⟨rfl, Or.inr ⟨msgBad, rfl, by decide, by decide⟩, by decide, by decide, by decide,
    by decide, by decide⟩

/-! ## Transport closure -/

/-- C7, as amended. The loop has no exit: when every receive from the `k`-th on
returns an error (as after `Unsubscribe` closed the handle) and the loop reached
that point running, then after any number `n ≥ k` of passes it is still
`Running`, has called receive `n` times, has delivered nothing further, and has
reported each of the failed receives `k`, ..., `n - 1` by its `msg err` line. -/
theorem loop_never_stops_on_closure {Event : Type} [Inhabited Event] (s : subscriber Event)
    (k n : Nat) (hk : (start s k).status = .Running)
    (herr : ∀ i, k ≤ i → ∃ e, s.ipfsPubSub.Next i = Except.error e) (hn : k ≤ n) :
    (start s n).status = .Running ∧ (start s n).receives = n ∧
      delivered (start s n) = delivered (start s k) ∧
      ∀ i e, k ≤ i → i < n → s.ipfsPubSub.Next i = Except.error e →
        (i, Effect.printf "msg err: %s" e) ∈ (start s n).effects := by
  have hall := start_errors_forever s k n hk herr hn
  exact ⟨hall.1, hall.2.1, hall.2.2.1, hall.2.2.2⟩

/-- C7, instance: a handle that yields one message, which is delivered, and is
closed from the second receive on, observed after 5 passes. -/
theorem loop_never_stops_on_closure_witness :
    (start liveSub 1).status = .Running ∧
    (∀ i, 1 ≤ i → ∃ e, liveSub.ipfsPubSub.Next i = Except.error e) ∧
    1 ≤ 5 ∧
    delivered (start liveSub 1) = ["high"] ∧
    liveSub.ipfsPubSub.Next 3 = Except.error "subscription closed" ∧
    ((start liveSub 5).status = .Running ∧ (start liveSub 5).receives = 5 ∧
      delivered (start liveSub 5) = delivered (start liveSub 1) ∧
      ∀ i e, 1 ≤ i → i < 5 → liveSub.ipfsPubSub.Next i = Except.error e →
        (i, Effect.printf "msg err: %s" e) ∈ (start liveSub 5).effects) :=
  ⟨by decide,
    fun i hi => ⟨"subscription closed", by
      have h0 : i ≠ 0 := by omega
      simp [liveSub, closingHandle, h0]⟩,
    by decide, by decide, rfl,
    loop_never_stops_on_closure liveSub 1 5 (by decide)
      (fun i hi => ⟨"subscription closed", by
        have h0 : i ≠ 0 := by omega
        simp [liveSub, closingHandle, h0]⟩)
      (by decide)⟩

/-- C7 as stated fails on a handle whose every receive reports closure, while
`Unsubscribe` itself returned no error: the loop stays `Running`, reports each
failed receive, and the number of receives it performs exceeds every bound. -/
theorem loop_stops_on_closure_counterexample :
    demoSub.Unsubscribe = none ∧
    (∀ i, demoSub.ipfsPubSub.Next i = Except.error "subscription closed") ∧
    (∀ n, (start demoSub n).status = .Running) ∧
    (∀ n i, i < n →
      (i, Effect.printf "msg err: %s" "subscription closed") ∈ (start demoSub n).effects) ∧
    ¬ ∃ bound, ∀ n, (start demoSub n).receives ≤ bound := by
  have hall := fun n =>
    start_errors_forever demoSub 0 n rfl
      (fun _ _ => ⟨"subscription closed", rfl⟩) (Nat.zero_le n)
  refine ⟨rfl, fun _ => rfl, fun n => (hall n).1, ?_, ?_⟩
  · intro n i hi
    exact (hall n).2.2.2 i "subscription closed" (Nat.zero_le i) hi rfl
  · rintro ⟨bound, hb⟩
    have h1 := hb (bound + 1)
    rw [(hall (bound + 1)).2.1] at h1
    omega

/-! ## Construction -/

/-- C4. Empty topic is rejected up front: when the options leave the topic empty,
`NewSubscriber` returns no subscriber and the error `wrong empty topic` without
having looked up a codec, called the transport or the identity provider, or
started the loop; when the topic is not empty, every error it returns comes from
the transport boundary, so never from this check. -/
theorem empty_topic_rejected {Event : Type} (Codecs : String → Option (Unit → Codec Event))
    (opts : List (SubOption Event)) :
    ((applyOpts opts).Topic = "" →
      NewSubscriber Codecs opts =
        { made := [], ret := .ok (none, some (.errorf "wrong empty topic")) }) ∧
    ((applyOpts opts).Topic ≠ "" →
      ∀ sub e, (NewSubscriber Codecs opts).ret = .ok (sub, some e) →
        e ≠ .errorf "wrong empty topic" ∧
        ((∃ t, e = .remote t) ∨ ∃ t, e = .wrap (.remote t) "unable to get id for user")) := by
  constructor
  · intro hT
    simp [NewSubscriber, hT]
  · intro hT sub e hret
    have key : (∃ t, e = .remote t) ∨ ∃ t, e = .wrap (.remote t) "unable to get id for user" := by
      unfold NewSubscriber at hret
      simp only [hT, if_false] at hret
      split at hret
      · cases hret
      · split at hret
        · cases hret
        · split at hret
          · cases hret
            exact Or.inl ⟨_, rfl⟩
          · split at hret
            · cases hret
              exact Or.inr ⟨_, rfl⟩
            · cases hret
    refine ⟨?_, key⟩
    rcases key with ⟨t, rfl⟩ | ⟨t, rfl⟩
    · intro h
      cases h
    · intro h
      cases h

/-- C4, instance: no options at all; and options with a topic, where the error
returned is the transport's. -/
theorem empty_topic_rejected_witness :
    (applyOpts ([] : List (SubOption String))).Topic = "" ∧
    NewSubscriber jsonOnly [] =
      { made := [], ret := .ok (none, some (.errorf "wrong empty topic")) } ∧
    (applyOpts (optsFor apiRejects)).Topic ≠ "" ∧
    (NewSubscriber jsonOnly (optsFor apiRejects)).ret = .ok (none, some (.remote "rejected")) ∧
    Error.remote "rejected" ≠ .errorf "wrong empty topic" :=
  ⟨rfl, (empty_topic_rejected jsonOnly []).1 rfl, by decide, rfl,
    ((empty_topic_rejected jsonOnly (optsFor apiRejects)).2 (by decide) none
      (.remote "rejected") rfl).1⟩

/-- C8, as amended. For a construction with a non-empty topic whose transport
and identity calls succeed: a configured codec is the codec of the returned
subscriber and the codec table is not consulted; with no codec configured and a
factory registered under the default name `"json"`, the codec of the returned
subscriber is the one that factory makes. -/
theorem codec_resolution {Event : Type} (Codecs : String → Option (Unit → Codec Event))
    (opts : List (SubOption Event)) (api : CoreAPI) (hdl : PubSubSubscription) (id : PeerID)
    (hT : (applyOpts opts).Topic ≠ "") (hapi : (applyOpts opts).coreAPI = some api)
    (hsub : api.Subscribe (applyOpts opts).Topic = .ok hdl) (hself : api.Self = .ok id) :
    DefaultCodecName = "json" ∧
    (∀ c, (applyOpts opts).codec = some c →
      ∃ s, (NewSubscriber Codecs opts).ret = .ok (some s, none) ∧ s.codec = c ∧
        s.opts.codec = some c ∧
        ∀ name, Call.codecLookup name ∉ (NewSubscriber Codecs opts).made) ∧
    (∀ mk, (applyOpts opts).codec = none → Codecs DefaultCodecName = some mk →
      ∃ s, (NewSubscriber Codecs opts).ret = .ok (some s, none) ∧ s.codec = mk () ∧
        s.opts.codec = some (mk ()) ∧
        (NewSubscriber Codecs opts).made.head? = some (.codecLookup "json")) := by
  refine ⟨rfl, ?_, ?_⟩
  · intro c hc
    simp [NewSubscriber, hT, hapi, hsub, hself, hc]
  · intro mk hc hmk
    have hmk1 : Codecs "json" = some mk := hmk
    simp [NewSubscriber, hT, hapi, hsub, hself, hc, hmk1, DefaultCodecName]

/-- C8, instances: a configured codec, and the default taken from the table. -/
theorem codec_resolution_witness :
    ((applyOpts ((fun o => { o with codec := some demoCodec }) :: optsFor apiOk)).codec =
        some demoCodec ∧
      ∃ s, (NewSubscriber noCodecs
          ((fun o => { o with codec := some demoCodec }) :: optsFor apiOk)).ret =
            .ok (some s, none) ∧ s.codec = demoCodec ∧ s.opts.codec = some demoCodec ∧
        ∀ name, Call.codecLookup name ∉ (NewSubscriber noCodecs
          ((fun o => { o with codec := some demoCodec }) :: optsFor apiOk)).made) ∧
    ((applyOpts (optsFor apiOk)).codec = none ∧
      jsonOnly DefaultCodecName = some (fun _ => demoCodec) ∧
      ∃ s, (NewSubscriber jsonOnly (optsFor apiOk)).ret = .ok (some s, none) ∧
        s.codec = demoCodec ∧ s.opts.codec = some demoCodec ∧
        (NewSubscriber jsonOnly (optsFor apiOk)).made.head? = some (.codecLookup "json")) :=
  ⟨⟨rfl,
      (codec_resolution noCodecs ((fun o => { o with codec := some demoCodec }) :: optsFor apiOk)
        apiOk closedHandle "peerA" (by decide) rfl rfl rfl).2.1 demoCodec rfl⟩,
    rfl, rfl,
    (codec_resolution jsonOnly (optsFor apiOk) apiOk closedHandle "peerA"
      (by decide) rfl rfl rfl).2.2 (fun _ => demoCodec) rfl rfl⟩

/-- C8 as stated fails when no codec is configured and none is registered under
`"json"`: the construction ends in the fault of calling a nil factory, and no
error value (indeed no result pair at all) is returned to the caller. -/
theorem codec_resolution_counterexample :
    (applyOpts (optsFor apiOk)).Topic ≠ "" ∧
    (applyOpts (optsFor apiOk)).codec = none ∧
    noCodecs DefaultCodecName = none ∧
    (NewSubscriber noCodecs (optsFor apiOk)).ret = .error .nilFuncCall ∧
    ¬ ∃ sub err, (NewSubscriber noCodecs (optsFor apiOk)).ret = .ok (sub, err) := by
  refine ⟨by decide, rfl, rfl, rfl, ?_⟩
  rintro ⟨sub, err, h⟩
  cases h

/-- C9, as amended. For a construction with a non-empty topic that reaches the
transport (a codec is configured or registered under the default name, and a
provider is set): if the transport rejects the subscribe call, `NewSubscriber`
returns no subscriber and the transport's error as it is, and the loop is not
started; if local identity resolution fails, it returns no subscriber and the
underlying error wrapped with the context `unable to get id for user`, and the
loop is not started; if both calls succeed, it returns a subscriber on that
topic, handle and identity with no error, and the loop is started exactly once. -/
theorem transport_boundary_failures {Event : Type}
    (Codecs : String → Option (Unit → Codec Event)) (opts : List (SubOption Event))
    (api : CoreAPI) (hT : (applyOpts opts).Topic ≠ "")
    (hcodec : (applyOpts opts).codec ≠ none ∨ Codecs DefaultCodecName ≠ none)
    (hapi : (applyOpts opts).coreAPI = some api) :
    (∀ t, api.Subscribe (applyOpts opts).Topic = .error t →
      (NewSubscriber Codecs opts).ret = .ok (none, some (.remote t)) ∧
      Call.goStart ∉ (NewSubscriber Codecs opts).made) ∧
    (∀ hdl t, api.Subscribe (applyOpts opts).Topic = .ok hdl → api.Self = .error t →
      (NewSubscriber Codecs opts).ret =
        .ok (none, some (.wrap (.remote t) "unable to get id for user")) ∧
      Call.goStart ∉ (NewSubscriber Codecs opts).made) ∧
    (∀ hdl id, api.Subscribe (applyOpts opts).Topic = .ok hdl → api.Self = .ok id →
      (∃ s, (NewSubscriber Codecs opts).ret = .ok (some s, none) ∧
        s.Topic = (applyOpts opts).Topic ∧ s.ipfsPubSub = hdl ∧ s.peerID = id ∧
        s.handler = (applyOpts opts).Handler) ∧
      (NewSubscriber Codecs opts).made.count .goStart = 1) := by
  have hres : ∃ c l, (∀ x ∈ l, x = Call.codecLookup DefaultCodecName) ∧
      (match (applyOpts opts).codec with
        | some c => (([] : List Call), some c)
        | none =>
          match Codecs DefaultCodecName with
          | none => ([.codecLookup DefaultCodecName], none)
          | some mk => ([.codecLookup DefaultCodecName], some (mk ()))) = (l, some c) := by
    cases hc : (applyOpts opts).codec with
    | some c => exact ⟨c, [], by simp, rfl⟩
    | none =>
      cases hk : Codecs DefaultCodecName with
      | none =>
        rcases hcodec with h | h
        · exact absurd hc h
        · exact absurd hk h
      | some mk => exact ⟨mk (), [.codecLookup DefaultCodecName], by simp, rfl⟩
  obtain ⟨c, l, hl, hres⟩ := hres
  have hnot : Call.goStart ∉ l := fun hmem => by
    have := hl _ hmem
    cases this
  have hcount : l.count Call.goStart = 0 := List.count_eq_zero_of_not_mem hnot
  refine ⟨?_, ?_, ?_⟩
  · intro t hsub
    simp [NewSubscriber, hT, hres, hapi, hsub, hnot]
  · intro hdl t hsub hself
    simp [NewSubscriber, hT, hres, hapi, hsub, hself, hnot]
  · intro hdl id hsub hself
    simp [NewSubscriber, hT, hres, hapi, hsub, hself, hcount, subscriber.Topic,
      List.count_cons]

/-- C9, instances: a rejected subscribe call, a failed identity resolution, and a
successful construction. -/
theorem transport_boundary_failures_witness :
    ((NewSubscriber jsonOnly (optsFor apiRejects)).ret = .ok (none, some (.remote "rejected")) ∧
      Call.goStart ∉ (NewSubscriber jsonOnly (optsFor apiRejects)).made) ∧
    ((NewSubscriber jsonOnly (optsFor apiNoIdentity)).ret =
        .ok (none, some (.wrap (.remote "no key") "unable to get id for user")) ∧
      Call.goStart ∉ (NewSubscriber jsonOnly (optsFor apiNoIdentity)).made) ∧
    ((∃ s, (NewSubscriber jsonOnly (optsFor apiOk)).ret = .ok (some s, none) ∧
        s.Topic = (applyOpts (optsFor apiOk)).Topic ∧ s.ipfsPubSub = closedHandle ∧
        s.peerID = "peerA" ∧ s.handler = (applyOpts (optsFor apiOk)).Handler) ∧
      (NewSubscriber jsonOnly (optsFor apiOk)).made.count .goStart = 1) :=
  ⟨(transport_boundary_failures jsonOnly (optsFor apiRejects) apiRejects (by decide)
      (Or.inr (by simp [jsonOnly, DefaultCodecName])) rfl).1 "rejected" rfl,
    (transport_boundary_failures jsonOnly (optsFor apiNoIdentity) apiNoIdentity (by decide)
      (Or.inr (by simp [jsonOnly, DefaultCodecName])) rfl).2.1 closedHandle "no key" rfl rfl,
    (transport_boundary_failures jsonOnly (optsFor apiOk) apiOk (by decide)
      (Or.inr (by simp [jsonOnly, DefaultCodecName])) rfl).2.2 closedHandle "peerA" rfl rfl⟩

/-- C9 as stated fails when the transport rejects the subscribe call: the error
returned is the transport's own, not one that wraps it with context. -/
theorem transport_boundary_failures_counterexample :
    (applyOpts (optsFor apiRejects)).Topic ≠ "" ∧
    apiRejects.Subscribe (applyOpts (optsFor apiRejects)).Topic = .error "rejected" ∧
    (NewSubscriber jsonOnly (optsFor apiRejects)).ret = .ok (none, some (.remote "rejected")) ∧
    ¬ ∃ cause context,
      (NewSubscriber jsonOnly (optsFor apiRejects)).ret =
        .ok (none, some (.wrap cause context)) := by
  refine ⟨by decide, rfl, rfl, ?_⟩
  rintro ⟨cause, context, h⟩
  cases h

end pubsub
